import Mathlib

/-!
Shallow embedding of the PyDTMC plotting module together with the
validation layer it consumes.  The functions present in the repository
sources (`plotting.py`) are translated directly from the source code;
the validators, the error reporter and the chain-simulation interface are
imported by the sources but their code is not part of the repository
snapshot, so they are modelled from the specification, as indicated in
their doc comments.  Numeric values are modelled by exact rationals.
-/

namespace PyDTMC

/-- Scalar Python objects handled by the primitive validators: booleans,
integers, floats (modelled as exact rationals) and strings. -/
inductive PyObj where
  | bool (b : Bool)
  | int (z : ℤ)
  | float (q : ℚ)
  | str (s : String)
  deriving DecidableEq

/-- Whether a scalar Python object is numeric (an integer or a float). -/
def PyObj.isNumeric : PyObj → Bool
  | .int _ => true
  | .float _ => true
  | _ => false

/-- Numeric value carried by a numeric scalar object (0 otherwise). -/
def PyObj.numValue : PyObj → ℚ
  | .int z => (z : ℚ)
  | .float q => q
  | _ => 0

/-- Check of an optional lower bound given as a (limit, exclusive) pair. -/
def checkLower (bound : Option (ℚ × Bool)) (x : ℚ) : Bool :=
  match bound with
  | none => true
  | some (l, true) => decide (l < x)
  | some (l, false) => decide (l ≤ x)

/-- Check of an optional upper bound given as a (limit, exclusive) pair. -/
def checkUpper (bound : Option (ℚ × Bool)) (x : ℚ) : Bool :=
  match bound with
  | none => true
  | some (u, true) => decide (x < u)
  | some (u, false) => decide (x ≤ u)

/-- Modelled from the spec: `validate_boolean` (validation module absent from
the sources) succeeds iff the value is a boolean and returns it unchanged,
with no coercion from integers or strings. -/
def validate_boolean (v : PyObj) : Except String Bool :=
  match v with
  | .bool b => .ok b
  | _ => .error "value is not a boolean"

/-- Modelled from the spec: `validate_integer` (validation module absent from
the sources) succeeds iff the value is numeric and integral and satisfies
each supplied bound, with strictness governed by each bound's exclusivity
flag independently; on success it returns the canonical integer. -/
def validate_integer (v : PyObj) (lower_limit upper_limit : Option (ℚ × Bool)) : Except String ℤ :=
  match v with
  | .int z =>
      if checkLower lower_limit (z : ℚ) && checkUpper upper_limit (z : ℚ) then .ok z
      else .error "value out of range"
  | .float q =>
      if q.den = 1 then
        if checkLower lower_limit q && checkUpper upper_limit q then .ok q.num
        else .error "value out of range"
      else .error "value is not an integral number"
  | _ => .error "value is not numeric"

/-- Modelled from the spec: `validate_float` (validation module absent from
the sources) succeeds iff the value is numeric and satisfies each supplied
bound; on success it returns the canonical float. -/
def validate_float (v : PyObj) (lower_limit upper_limit : Option (ℚ × Bool)) : Except String ℚ :=
  match v with
  | .int z =>
      if checkLower lower_limit (z : ℚ) && checkUpper upper_limit (z : ℚ) then .ok (z : ℚ)
      else .error "value out of range"
  | .float q =>
      if checkLower lower_limit q && checkUpper upper_limit q then .ok q
      else .error "value out of range"
  | _ => .error "value is not numeric"

/-- Modelled from the spec: `validate_enumerator` (validation module absent
from the sources) succeeds iff the value equals one of the allowed strings,
by exact case-sensitive match, and returns the matched string. -/
def validate_enumerator (v : PyObj) (possible_values : List String) : Except String String :=
  match v with
  | .str s => if s ∈ possible_values then .ok s else .error "value is not among the possible values"
  | _ => .error "value is not a string"

/-- Modelled from the spec: `validate_dpi` (validation module absent from the
sources) is bounded-integer validation with a fixed positive lower bound and
a conventional upper ceiling; the spec fixes only the positivity of the
lower bound and the existence of a ceiling, realised here as 0 (exclusive)
and 1000 (inclusive). -/
def validate_dpi (v : PyObj) : Except String ℤ :=
  validate_integer v (some (0, true)) (some (1000, false))

/-- Modelled from the spec: the fixed set of named boundary-condition
symbols with absorbing/reflecting semantics. -/
def boundary_symbols : List String := ["absorbing", "reflecting"]

/-- Modelled from the spec: `validate_boundary_condition` (validation module
absent from the sources) succeeds iff the value is a float, an integer or
one of the named symbols, returning the value in its original kind. -/
def validate_boundary_condition (v : PyObj) : Except String PyObj :=
  match v with
  | .float q => .ok (.float q)
  | .int z => .ok (.int z)
  | .str s => if s ∈ boundary_symbols then .ok (.str s) else .error "value is not a valid boundary condition"
  | .bool _ => .error "value is not a valid boundary condition"

/-- Dictionary keys: a scalar or a tuple of scalars. -/
inductive DictKey where
  | scalar (k : PyObj)
  | tup (ks : List PyObj)
  deriving DecidableEq

/-- Arities of the tuple keys of a key list. -/
def tupleArities (ks : List DictKey) : List ℕ :=
  ks.filterMap (fun k => match k with | .tup t => some t.length | .scalar _ => none)

/-- Whether all numbers in a list are equal. -/
def allEqualNat (l : List ℕ) : Bool :=
  match l with
  | [] => true
  | a :: rest => rest.all (fun x => x == a)

/-- Modelled from the spec: `validate_dictionary` (validation module absent
from the sources) succeeds iff the mapping is non-empty, its keys are
pairwise unique and its tuple keys all have identical arity; it returns the
mapping unchanged. -/
def validate_dictionary (d : List (DictKey × ℚ)) : Except String (List (DictKey × ℚ)) :=
  if d ≠ [] ∧ (d.map Prod.fst).Nodup ∧ allEqualNat (tupleArities (d.map Prod.fst)) = true then .ok d
  else .error "invalid dictionary"

/-- Modelled from the spec: `validate_interval` (validation module absent
from the sources) succeeds iff both components of the ordered pair are
numeric and the first is strictly smaller than the second; it returns the
pair of floats. -/
def validate_interval (v : PyObj × PyObj) : Except String (ℚ × ℚ) :=
  if v.1.isNumeric = true ∧ v.2.isNumeric = true then
    if v.1.numValue < v.2.numValue then .ok (v.1.numValue, v.2.numValue)
    else .error "interval is not strictly increasing"
  else .error "interval values are not numeric"

/-- Modelled from the spec: `validate_hyperparameter` (validation module
absent from the sources) succeeds iff the vector has the requested length,
every element is non-negative and not all elements are zero. -/
def validate_hyperparameter (v : List ℚ) (size : ℕ) : Except String (List ℚ) :=
  if v.length = size ∧ (∀ x ∈ v, 0 ≤ x) ∧ (∃ x ∈ v, x ≠ 0) then .ok v
  else .error "invalid hyperparameter"

/-- State references accepted by the state validators: a state name or an
integer index. -/
inductive StateRef where
  | name (s : String)
  | idx (i : ℤ)
  deriving DecidableEq

/-- Modelled from the spec: `validate_state` (validation module absent from
the sources) resolves a string to its index in the state universe, failing
with an unknown-state error when absent, and accepts an integer index iff
it lies within the interval from 0 (inclusive) to the universe length
(exclusive), failing with an index-out-of-range error otherwise. -/
def validate_state (v : StateRef) (current_states : List String) : Except String ℕ :=
  match v with
  | .name s =>
      if s ∈ current_states then .ok (current_states.indexOf s)
      else .error "unknown state"
  | .idx i =>
      if 0 ≤ i ∧ i < (current_states.length : ℤ) then .ok i.toNat
      else .error "index out of range"

/-- Sequential validation of a list, failing atomically on the first
invalid element. -/
def mapValidate (f : StateRef → Except String ℕ) : List StateRef → Except String (List ℕ)
  | [] => .ok []
  | r :: rest =>
    match f r with
    | .error e => .error e
    | .ok i =>
      match mapValidate f rest with
      | .error e => .error e
      | .ok l => .ok (i :: l)

/-- Modelled from the spec: `validate_states` (validation module absent from
the sources) resolves every element through the single-state rule, failing
atomically on the first invalid element; an empty sequence is rejected
unless `allow_empty` is set. -/
def validate_states (v : List StateRef) (current_states : List String) (param : String) (allow_empty : Bool) : Except String (List ℕ) :=
  if v = [] ∧ allow_empty = false then .error (param ++ " is empty")
  else mapValidate (fun r => validate_state r current_states) v

/-- Absolute tolerance on probability-mass sums, from the spec. -/
def dist_tol : ℚ := 1 / 100000000

/-- Whether a vector is a probability distribution of the given size:
correct length, non-negative entries, mass 1 within tolerance. -/
def isDistVector (d : List ℚ) (size : ℕ) : Prop :=
  d.length = size ∧ (∀ x ∈ d, 0 ≤ x) ∧ |d.sum - 1| < dist_tol

instance instDecIsDistVector (d : List ℚ) (size : ℕ) : Decidable (isDistVector d size) :=
  inferInstanceAs (Decidable (_ ∧ _ ∧ _))

/-- Flexible distribution input: a step count, a single distribution
vector, or an explicit sequence of distribution vectors. -/
inductive DistFlex where
  | count (n : ℤ)
  | single (d : List ℚ)
  | seq (ds : List (List ℚ))
  deriving DecidableEq

/-- Canonical distribution result: the sentinel distinguishes a step count
from an explicit single vector or vector sequence. -/
inductive DistCanon where
  | count (n : ℕ)
  | single (d : List ℚ)
  | seq (ds : List (List ℚ))
  deriving DecidableEq

/-- Re-injection of a canonical distribution result as a raw input. -/
def distCanonToFlex : DistCanon → DistFlex
  | .count n => .count (n : ℤ)
  | .single d => .single d
  | .seq ds => .seq ds

/-- Modelled from the spec: `validate_distribution` (validation module
absent from the sources) accepts a plain non-negative integer meaning a
step count, a single distribution vector of the given size, or a non-empty
sequence of such vectors each validated independently; the canonical
result distinguishes the count form from the explicit forms. -/
def validate_distribution (v : DistFlex) (size : ℕ) : Except String DistCanon :=
  match v with
  | .count n => if 0 ≤ n then .ok (.count n.toNat) else .error "count is negative"
  | .single d => if isDistVector d size then .ok (.single d) else .error "invalid distribution"
  | .seq ds =>
      if ds ≠ [] ∧ ∀ d ∈ ds, isDistVector d size then .ok (.seq ds)
      else .error "invalid distribution sequence"

/-- Flexible status input: a state reference or an explicit distribution. -/
inductive StatusFlex where
  | state (r : StateRef)
  | dist (d : List ℚ)
  deriving DecidableEq

/-- One-hot probability vector of the given length. -/
def oneHot (n : ℕ) (i : ℕ) : List ℚ :=
  (List.range n).map (fun j => if j = i then 1 else 0)

/-- Modelled from the spec and from the plotting docstrings: the
`validate_status` validator (validation module absent from the sources)
accepts the initial state, resolved through the single-state rule and
turned into a one-hot distribution, or an explicit initial distribution of
the states, validated against the state count. -/
def validate_status (v : StatusFlex) (current_states : List String) : Except String (List ℚ) :=
  match v with
  | .state r => (validate_state r current_states).map (fun i => oneHot current_states.length i)
  | .dist d =>
      if isDistVector d current_states.length then .ok d else .error "invalid status"

/-- Modelled from the spec: `validate_graph` (validation module absent from
the sources) fails iff the node set is empty or the node labels are
non-unique; the graph is modelled by its node-label list. -/
def validate_graph (nodes : List String) : Except String (List String) :=
  if nodes ≠ [] ∧ nodes.Nodup then .ok nodes else .error "invalid graph"

/-- Markov chain object: state universe and transition matrix. -/
structure MC where
  states : List String
  p : List (List ℚ)
  deriving DecidableEq

/-- Number of states of the chain. -/
def MC.size (mc : MC) : ℕ := mc.states.length

/-- Whether a matrix is row-stochastic for the given dimension: square,
non-negative, each row summing to 1 within tolerance. -/
def isStochasticMatrix (p : List (List ℚ)) (n : ℕ) : Prop :=
  p.length = n ∧ ∀ row ∈ p, row.length = n ∧ (∀ x ∈ row, 0 ≤ x) ∧ |row.sum - 1| < dist_tol

instance instDecIsStochasticMatrix (p : List (List ℚ)) (n : ℕ) : Decidable (isStochasticMatrix p n) :=
  inferInstanceAs (Decidable (_ ∧ _))

/-- Modelled from the spec: `validate_markov_chain` (validation module
absent from the sources) succeeds iff the chain exposes a non-empty state
universe of unique names and a square, non-negative, row-stochastic
transition matrix. -/
def validate_markov_chain (mc : MC) : Except String MC :=
  if mc.states ≠ [] ∧ mc.states.Nodup ∧ isStochasticMatrix mc.p mc.states.length then .ok mc
  else .error "invalid Markov chain"

/-- Sample state pairs used to probe a transition function. -/
def probe_pairs : List (ℕ × ℕ) := [(0, 0), (0, 1), (1, 0), (1, 1)]

/-- Whether probing the callable on every sample pair yields a numeric
value within the unit interval; a probe returning none models a callback
that misbehaves (raises or produces a non-numeric value). -/
def probeOk (f : ℕ → ℕ → Option ℚ) : Bool :=
  probe_pairs.all (fun pr =>
    match f pr.1 pr.2 with
    | some q => decide (0 ≤ q ∧ q ≤ 1)
    | none => false)

/-- Modelled from the spec: `validate_transition_function` (validation
module absent from the sources) probes the callable against sample state
pairs and succeeds iff every probe returns a numeric value within the unit
interval, returning the callable unchanged. -/
def validate_transition_function (f : ℕ → ℕ → Option ℚ) : Except String (ℕ → ℕ → Option ℚ) :=
  if probeOk f then .ok f else .error "invalid transition function"

/-- Externally visible validation error: failing parameter name and the
message of the wrapped internal failure. -/
structure ValidationError where
  parameter : String
  message : String
  deriving DecidableEq

/-- Modelled from the spec: `generate_validation_error` (utilities module
absent from the sources) wraps a raised validation failure into the single
externally visible error shape, attaching the failing parameter name
recovered from the call trace; the trace is modelled by that name. -/
def generate_validation_error (e : String) (tr : String) : ValidationError :=
  { parameter := tr, message := e }

/-- Errors observable from a public plotting entry point: a wrapped
validation error, or a bare value error raised outside the wrapping. -/
inductive PlotError where
  | validation (e : ValidationError)
  | value (msg : String)
  deriving DecidableEq

/-- Whether a plot error is of the wrapped validation kind. -/
def PlotError.isValidationErr : PlotError → Bool
  | .validation _ => true
  | .value _ => false

/-- Wrapping of one validator call, mirroring the try/except block of the
plotting entry points: a raised failure is passed through
`generate_validation_error` with the trace of the failing parameter. -/
def wrapV {α : Type} (param : String) (r : Except String α) : Except PlotError α :=
  match r with
  | .ok a => .ok a
  | .error e => .error (.validation (generate_validation_error e param))

/-- Validation-and-decision core of `plot_eigenvalues` (plotting.py):
the validation phase of the source function, rendering elided. -/
def plot_eigenvalues (mc : MC) (dpi : PyObj) : Except PlotError (MC × ℤ) :=
  match wrapV "mc" (validate_markov_chain mc) with
  | .error e => .error e
  | .ok mcV =>
  match wrapV "dpi" (validate_dpi dpi) with
  | .error e => .error e
  | .ok dpiV => .ok (mcV, dpiV)

/-- Validation-and-decision core of `plot_graph` (plotting.py): the
validation phase of the source function, rendering elided. -/
def plot_graph (mc : MC) (nodes_color nodes_type edges_color edges_value force_standard : PyObj) (dpi : PyObj) :
    Except PlotError (MC × Bool × Bool × Bool × Bool × Bool × ℤ) :=
  match wrapV "mc" (validate_markov_chain mc) with
  | .error e => .error e
  | .ok mcV =>
  match wrapV "nodes_color" (validate_boolean nodes_color) with
  | .error e => .error e
  | .ok ncV =>
  match wrapV "nodes_type" (validate_boolean nodes_type) with
  | .error e => .error e
  | .ok ntV =>
  match wrapV "edges_color" (validate_boolean edges_color) with
  | .error e => .error e
  | .ok ecV =>
  match wrapV "edges_value" (validate_boolean edges_value) with
  | .error e => .error e
  | .ok evV =>
  match wrapV "force_standard" (validate_boolean force_standard) with
  | .error e => .error e
  | .ok fsV =>
  match wrapV "dpi" (validate_dpi dpi) with
  | .error e => .error e
  | .ok dpiV => .ok (mcV, ncV, ntV, ecV, evV, fsV, dpiV)

/-- One redistribution step: right multiplication of the distribution by
the transition matrix. -/
def stepDist (p : List (List ℚ)) (d : List ℚ) : List ℚ :=
  (List.range (p.headD []).length).map (fun j => ((d.zip p).map (fun pr => pr.1 * (pr.2.getD j 0))).sum)

/-- Redistribution sequence of the given number of steps from a starting
distribution, the starting distribution included. -/
def redistributeAux (p : List (List ℚ)) (d : List ℚ) : ℕ → List (List ℚ)
  | 0 => [d]
  | n + 1 => d :: redistributeAux p (stepDist p d) n

/-- Modelled from the spec: `mc.redistribute` (simulation engine absent
from the sources, referenced as an external consumer interface) generates
the requested number of redistribution steps starting from the supplied
initial status, or from the uniform distribution when it is omitted. -/
def MC.redistribute (mc : MC) (n : ℕ) (initial_status : Option (List ℚ)) : List (List ℚ) :=
  redistributeAux mc.p (initial_status.getD (List.replicate mc.size ((1 : ℚ) / (mc.size : ℚ)))) n

/-- Optional-status validation step of `plot_redistributions`. -/
def validateStatusOpt (st : Option StatusFlex) (current_states : List String) : Except PlotError (Option (List ℚ)) :=
  match st with
  | none => .ok none
  | some s => wrapV "initial_status" ((validate_status s current_states).map some)

/-- Message of the bare ValueError of `plot_redistributions`. -/
def redist_mismatch_msg : String :=
  "the initial_status parameter, if specified when the distributions parameter represents a sequence of redistributions, must match the first element"

/-- Message of the bare ValueError of `plot_walk`. -/
def walk_mismatch_msg : String :=
  "the initial_state parameter, if specified when the walk parameter represents a sequence of states, must match the first element"

/-- Validated distributions value after the count branch of
`plot_redistributions`: a single vector or a vector sequence. -/
inductive DistsVal where
  | single (d : List ℚ)
  | many (ds : List (List ℚ))

/-- Count branch of `plot_redistributions`: an integer count is replaced
by generated redistributions of the chain, the explicit forms are kept. -/
def redistDistsVal (mcV : MC) (dists : DistCanon) (status : Option (List ℚ)) : DistsVal :=
  match dists with
  | .count n => .many (mcV.redistribute n status)
  | .single d => .single d
  | .seq ds => .many ds

/-- Initial-status mismatch test of `plot_redistributions`: nothing to
check without a status; against a single vector the source compares a
scalar with the status vector through np.array_equal, which is false for
arrays of different shape; against a sequence the first element is
compared with the status. -/
def redistMismatch (status : Option (List ℚ)) (dv : DistsVal) : Bool :=
  match status, dv with
  | none, _ => false
  | some _, .single _ => true
  | some st, .many ds => decide (ds.headD [] ≠ st)

/-- Final canonical distributions list of `plot_redistributions`: a single
vector is wrapped into a one-element sequence. -/
def distsValList : DistsVal → List (List ℚ)
  | .single d => [d]
  | .many ds => ds

/-- Straight-line code of `plot_redistributions` after the try block:
count branch, mismatch check raising the bare ValueError, and the final
canonical distributions. -/
def redistFinish (mcV : MC) (dists : DistCanon) (status : Option (List ℚ)) (ptV : String) (dpiV : ℤ) :
    Except PlotError (List (List ℚ) × String × ℤ) :=
  if redistMismatch status (redistDistsVal mcV dists status) then .error (.value redist_mismatch_msg)
  else .ok (distsValList (redistDistsVal mcV dists status), ptV, dpiV)

/-- Validation-and-decision core of `plot_redistributions` (plotting.py):
validation phase, count branch and initial-status mismatch check of the
source function, rendering elided.  In the single-vector case the source
compares a scalar against the status vector through np.array_equal, which
is false for any two arrays of different shape. -/
def plot_redistributions (mc : MC) (distributions : DistFlex) (initial_status : Option StatusFlex) (plot_type : PyObj) (dpi : PyObj) :
    Except PlotError (List (List ℚ) × String × ℤ) :=
  match wrapV "mc" (validate_markov_chain mc) with
  | .error e => .error e
  | .ok mcV =>
  match wrapV "distributions" (validate_distribution distributions mcV.size) with
  | .error e => .error e
  | .ok dists =>
  match validateStatusOpt initial_status mcV.states with
  | .error e => .error e
  | .ok status =>
  match wrapV "plot_type" (validate_enumerator plot_type ["heatmap", "projection"]) with
  | .error e => .error e
  | .ok ptV =>
  match wrapV "dpi" (validate_dpi dpi) with
  | .error e => .error e
  | .ok dpiV => redistFinish mcV dists status ptV dpiV

/-- Flexible walk input: a simulation count or an explicit sequence of
state references. -/
inductive WalkFlex where
  | count (z : ℤ)
  | states (refs : List StateRef)

/-- Straight-line code of `plot_walk` after the try block: initial-state
mismatch check raising the bare ValueError, then the canonical walk. -/
def walkFinish (wlist : List ℕ) (ini : Option ℕ) (ptV : String) (dpiV : ℤ) :
    Except PlotError (List ℕ × String × ℤ) :=
  if (match ini with | none => false | some i => decide (wlist.headD 0 ≠ i)) then
    .error (.value walk_mismatch_msg)
  else .ok (wlist, ptV, dpiV)

/-- Validation-and-decision core of `plot_walk` (plotting.py): validation
phase, count branch and initial-state mismatch check of the source
function, rendering elided.  The random simulation `mc.walk` is supplied
as the oracle `sim`, receiving the step count, the validated initial state
and the seed. -/
def plot_walk (sim : ℕ → Option ℕ → Option ℤ → List ℕ) (mc : MC) (walk : WalkFlex) (initial_state : Option StateRef) (plot_type : PyObj) (seed : Option ℤ) (dpi : PyObj) :
    Except PlotError (List ℕ × String × ℤ) :=
  match wrapV "mc" (validate_markov_chain mc) with
  | .error e => .error e
  | .ok mcV =>
  match (match walk with
         | .count z => (wrapV "walk" (validate_integer (.int z) (some (1, false)) none)).map Sum.inl
         | .states refs => (wrapV "walk" (validate_states refs mcV.states "walk" false)).map Sum.inr) with
  | .error e => .error e
  | .ok wk =>
  match (match initial_state with
         | none => Except.ok (none : Option ℕ)
         | some r => (wrapV "initial_state" (validate_state r mcV.states)).map some) with
  | .error e => .error e
  | .ok ini =>
  match wrapV "plot_type" (validate_enumerator plot_type ["histogram", "sequence", "transitions"]) with
  | .error e => .error e
  | .ok ptV =>
  match wrapV "dpi" (validate_dpi dpi) with
  | .error e => .error e
  | .ok dpiV =>
      walkFinish (match wk with | .inl n => sim n.toNat ini seed | .inr l => l) ini ptV dpiV

/-- Row of the walk-histogram matrix for one state: the indicator of that
state along the walk, translated from the assignment loop of the histogram
branch of `plot_walk`. -/
def histRow (walk : List ℕ) (s : ℕ) : List ℚ :=
  walk.map (fun st => if st = s then 1 else 0)

/-- Walk-histogram matrix of `plot_walk`: one row per state, one column
per step, entry 1 at the visited state of each step. -/
def histMatrix (size : ℕ) (walk : List ℕ) : List (List ℚ) :=
  (List.range size).map (histRow walk)

/-- Frequency vector of the histogram branch of `plot_walk`: the row sums
of the walk-histogram matrix divided by its total sum. -/
def walkFreq (size : ℕ) (walk : List ℕ) : List ℚ :=
  ((histMatrix size walk).map List.sum).map
    (fun r => r / ((histMatrix size walk).map List.sum).sum)

/-- Value of a lowercase hexadecimal digit character, upper or lower case
accepted, as in Python's int(x, 16) parsing of a single digit. -/
def hexDigitVal (c : Char) : ℕ :=
  match c with
  | '0' => 0 | '1' => 1 | '2' => 2 | '3' => 3 | '4' => 4
  | '5' => 5 | '6' => 6 | '7' => 7 | '8' => 8 | '9' => 9
  | 'a' => 10 | 'b' => 11 | 'c' => 12 | 'd' => 13 | 'e' => 14 | 'f' => 15
  | 'A' => 10 | 'B' => 11 | 'C' => 12 | 'D' => 13 | 'E' => 14 | 'F' => 15
  | _ => 0

/-- Value of a two-digit hexadecimal pair. -/
def hexPair (c1 c2 : Char) : ℕ := 16 * hexDigitVal c1 + hexDigitVal c2

/-- The three RGB channels parsed from a 7-character hex color string,
translated from the slicing comprehension of `edge_colors`. -/
def hexChannels (s : String) : List ℕ :=
  [hexPair (s.data.getD 1 '0') (s.data.getD 2 '0'),
   hexPair (s.data.getD 3 '0') (s.data.getD 4 '0'),
   hexPair (s.data.getD 5 '0') (s.data.getD 6 '0')]

/-- Lowercase hexadecimal digit character of a value below 16. -/
def hexDigitChar (n : ℕ) : Char :=
  match n with
  | 0 => '0' | 1 => '1' | 2 => '2' | 3 => '3' | 4 => '4'
  | 5 => '5' | 6 => '6' | 7 => '7' | 8 => '8' | 9 => '9'
  | 10 => 'a' | 11 => 'b' | 12 => 'c' | 13 => 'd' | 14 => 'e'
  | 15 => 'f' | _ => '0'

/-- Minimal-length lowercase hexadecimal rendering of a natural number, as
Python's format specifier x produces. -/
def natToHex (n : ℕ) : String :=
  if _h : n < 16 then String.mk [hexDigitChar n]
  else natToHex (n / 16) ++ String.mk [hexDigitChar (n % 16)]
termination_by n
decreasing_by exact Nat.div_lt_self (by omega) (by omega)

/-- One formatted channel byte of `edge_colors`: the hex rendering,
zero-padded on the left when the value is below 16. -/
def formatHexByte (v : ℕ) : String :=
  if v < 16 then "0" ++ natToHex v else natToHex v

/-- Python truncation toward zero of a rational, as int() performs. -/
def pyIntOfRat (q : ℚ) : ℤ :=
  if 0 ≤ q then ⌊q⌋ else -⌊-q⌋

/-- Interpolated channel value of `edge_colors` at inner step s out of
steps: the truncation of begin + (s / (steps - 1)) * (end - begin). -/
def interpChannel (b e : ℕ) (s steps : ℕ) : ℕ :=
  (pyIntOfRat ((b : ℚ) + ((s : ℚ) / ((steps : ℚ) - 1)) * ((e : ℚ) - (b : ℚ)))).toNat

/-- Color-gradient helper `edge_colors` nested in `plot_graph`
(plotting.py): the list opens with hex_from verbatim and continues with
steps - 1 interpolated colors, each formatted as a hash sign followed by
the three zero-padded channel bytes. -/
def edge_colors (hex_from hex_to : String) (steps : ℕ) : List String :=
  hex_from :: (List.range (steps - 1)).map (fun k =>
    "#" ++ String.join ((List.range 3).map (fun j =>
      formatHexByte (interpChannel ((hexChannels hex_from).getD j 0) ((hexChannels hex_to).getD j 0) (k + 1) steps))))

/-- Lowercase hexadecimal digit characters. -/
def hexLowerChars : List Char := "0123456789abcdef".data

/-- Whether a string is a hash sign followed by six lowercase hexadecimal
digits. -/
def isLowerHexColor (s : String) : Bool :=
  match s.data with
  | c :: rest => c == '#' && ((rest.length == 6) && rest.all (fun x => decide (x ∈ hexLowerChars)))
  | [] => false

/-- Whether an Except value is a success. -/
def exceptOk {ε α : Type} (r : Except ε α) : Bool :=
  match r with
  | .ok _ => true
  | .error _ => false

/-- Idempotence of a validator along a re-injection of its canonical
result as a raw input. -/
def IdemStep {α β : Type} (f : α → Except String β) (inj : β → α) : Prop :=
  ∀ v c, f v = .ok c → f (inj c) = .ok c

/-- Whether a scalar object is acceptable to the boundary-condition
validator: a float, an integer, or a named boundary symbol. -/
def isBoundaryInput (v : PyObj) : Prop :=
  match v with
  | .float _ => True
  | .int _ => True
  | .str s => s ∈ boundary_symbols
  | .bool _ => False

/-- Concrete two-state chain used by the closed witnesses. -/
def mcEx : MC :=
  { states := ["a", "b"], p := [[1/2, 1/2], [1/2, 1/2]] }

instance instDecEqExcept {ε α : Type} [DecidableEq ε] [DecidableEq α] : DecidableEq (Except ε α) :=
  fun x y =>
    match x, y with
    | .ok a, .ok b =>
        if h : a = b then .isTrue (by rw [h]) else .isFalse (by intro hc; injection hc; contradiction)
    | .error a, .error b =>
        if h : a = b then .isTrue (by rw [h]) else .isFalse (by intro hc; injection hc; contradiction)
    | .ok _, .error _ => .isFalse (fun hc => Except.noConfusion hc)
    | .error _, .ok _ => .isFalse (fun hc => Except.noConfusion hc)

/-- C1: for every state universe and every string member s,
validate_state resolves s to the index at which the universe holds s, and
every in-range integer index is returned unchanged. -/
theorem C1_validate_state_round_trip (current_states : List String) (s : String) (i : ℤ)
    (_hnd : current_states.Nodup) (hs : s ∈ current_states)
    (h0 : 0 ≤ i) (hi : i < (current_states.length : ℤ)) :
    (validate_state (.name s) current_states = .ok (current_states.indexOf s)
      ∧ current_states.getD (current_states.indexOf s) "" = s)
    ∧ (validate_state (.idx i) current_states = .ok i.toNat ∧ (i.toNat : ℤ) = i) := by
  refine ⟨⟨?_, ?_⟩, ?_, ?_⟩
  · simp [validate_state, hs]
  · have hlt : current_states.indexOf s < current_states.length := List.indexOf_lt_length.2 hs
    rw [List.getD_eq_getElem _ _ hlt]
    exact List.getElem_indexOf hlt
  · simp [validate_state, h0, hi]
  · omega

/-- Closed instance of the state round trip on a concrete universe. -/
theorem C1_witness :
    (validate_state (.name "b") ["a", "b"] = .ok (["a", "b"].indexOf "b")
      ∧ ["a", "b"].getD (["a", "b"].indexOf "b") "" = "b")
    ∧ (validate_state (.idx 1) ["a", "b"] = .ok (1 : ℤ).toNat ∧ ((1 : ℤ).toNat : ℤ) = 1) :=
  C1_validate_state_round_trip ["a", "b"] "b" 1 (by decide) (by decide) (by decide) (by decide)

/-- C5: with inclusive bounds 0 and 10, validate_integer accepts 0 and 10,
rejects -1, 11 and the non-integral 5.5; in general it succeeds exactly on
numeric integral values satisfying each bound per its exclusivity flag,
returning the canonical integer. -/
theorem C5_validate_integer_bounds :
    (validate_integer (.int 0) (some (0, false)) (some (10, false)) = .ok 0
      ∧ validate_integer (.int 10) (some (0, false)) (some (10, false)) = .ok 10
      ∧ validate_integer (.int (-1)) (some (0, false)) (some (10, false)) = .error "value out of range"
      ∧ validate_integer (.int 11) (some (0, false)) (some (10, false)) = .error "value out of range"
      ∧ validate_integer (.float (11 / 2)) (some (0, false)) (some (10, false)) = .error "value is not an integral number")
    ∧ ∀ (v : PyObj) (lo hi : Option (ℚ × Bool)) (z : ℤ),
        validate_integer v lo hi = .ok z ↔
          (v = .int z ∨ v = .float (z : ℚ))
            ∧ checkLower lo (z : ℚ) = true ∧ checkUpper hi (z : ℚ) = true := by
  constructor
  · refine ⟨by decide, by decide, by decide, by decide, ?_⟩
    simp only [validate_integer]
    rw [if_neg (by norm_num)]
  · intro v lo hi z
    constructor
    · intro h
      cases v with
      | bool b => simp [validate_integer] at h
      | str s => simp [validate_integer] at h
      | int z' =>
          rw [validate_integer] at h
          split at h
          · rename_i hc
            injection h with h
            subst h
            rw [Bool.and_eq_true] at hc
            exact ⟨Or.inl rfl, hc.1, hc.2⟩
          · exact absurd h (by simp)
      | float q =>
          rw [validate_integer] at h
          split at h
          · rename_i hden
            have hq : (q.num : ℚ) = q := (Rat.den_eq_one_iff q).1 hden
            split at h
            · rename_i hc
              injection h with h
              subst h
              rw [Bool.and_eq_true] at hc
              rw [hq]
              exact ⟨Or.inr rfl, hc.1, hc.2⟩
            · exact absurd h (by simp)
          · exact absurd h (by simp)
    · rintro ⟨hv | hv, hl, hu⟩ <;> subst hv
      · simp [validate_integer, hl, hu]
      · simp [validate_integer, Rat.den_intCast, Rat.num_intCast, hl, hu]

/-- Closed instance of the validate_integer boundary behavior via the
general characterization. -/
theorem C5_witness :
    validate_integer (.float ((7 : ℤ) : ℚ)) (some (0, false)) (some (10, false)) = .ok 7 :=
  (C5_validate_integer_bounds.2 (.float ((7 : ℤ) : ℚ)) (some (0, false)) (some (10, false)) 7).mpr
    ⟨Or.inr rfl, by decide, by decide⟩

/-- C7: validate_boundary_condition succeeds exactly on floats, integers
and the named boundary symbols, and on success returns the value unchanged
in its original fundamental kind (float, int or string). -/
theorem C7_validate_boundary_condition (v : PyObj) :
    ((∃ r, validate_boundary_condition v = .ok r) ↔ isBoundaryInput v)
    ∧ ∀ r, validate_boundary_condition v = .ok r →
        r = v ∧ ((∃ q, r = .float q) ∨ (∃ z, r = .int z) ∨ (∃ s, r = .str s)) := by
  cases v with
  | bool b =>
      refine ⟨⟨?_, ?_⟩, ?_⟩
      · rintro ⟨r, hr⟩; simp [validate_boundary_condition] at hr
      · intro h; exact absurd h (by simp [isBoundaryInput])
      · intro r hr; simp [validate_boundary_condition] at hr
  | int z =>
      refine ⟨⟨fun _ => trivial, fun _ => ⟨.int z, rfl⟩⟩, ?_⟩
      · intro r hr
        injection hr with hr
        exact ⟨hr.symm, Or.inr (Or.inl ⟨z, hr.symm⟩)⟩
  | float q =>
      refine ⟨⟨fun _ => trivial, fun _ => ⟨.float q, rfl⟩⟩, ?_⟩
      · intro r hr
        injection hr with hr
        exact ⟨hr.symm, Or.inl ⟨q, hr.symm⟩⟩
  | str s =>
      by_cases hmem : s ∈ boundary_symbols
      · refine ⟨⟨fun _ => hmem, fun _ => ⟨.str s, by simp [validate_boundary_condition, hmem]⟩⟩, ?_⟩
        · intro r hr
          rw [validate_boundary_condition, if_pos hmem] at hr
          injection hr with hr
          exact ⟨hr.symm, Or.inr (Or.inr ⟨s, hr.symm⟩)⟩
      · refine ⟨⟨?_, fun h => absurd h hmem⟩, ?_⟩
        · rintro ⟨r, hr⟩
          rw [validate_boundary_condition, if_neg hmem] at hr
          exact absurd hr (by simp)
        · intro r hr
          rw [validate_boundary_condition, if_neg hmem] at hr
          exact absurd hr (by simp)

/-- Closed instance of the boundary-condition contract at a named
symbol. -/
theorem C7_witness :
    PyObj.str "absorbing" = PyObj.str "absorbing"
      ∧ ((∃ q, PyObj.str "absorbing" = .float q) ∨ (∃ z, PyObj.str "absorbing" = .int z)
          ∨ (∃ s, PyObj.str "absorbing" = .str s)) :=
  (C7_validate_boundary_condition (.str "absorbing")).2 (.str "absorbing") (by decide)

/-- C8: validate_enumerator matches exactly and case-sensitively, accepting
heatmap against the heatmap/projection set and rejecting Heatmap; in
general it succeeds exactly when the input is the string equal to one of
the allowed values, returning that string. -/
theorem C8_validate_enumerator :
    (validate_enumerator (.str "heatmap") ["heatmap", "projection"] = .ok "heatmap"
      ∧ validate_enumerator (.str "Heatmap") ["heatmap", "projection"] = .error "value is not among the possible values")
    ∧ ∀ (v : PyObj) (allowed : List String) (r : String),
        validate_enumerator v allowed = .ok r ↔ v = .str r ∧ r ∈ allowed := by
  constructor
  · exact ⟨by decide, by decide⟩
  · intro v allowed r
    constructor
    · intro h
      cases v with
      | bool b => simp [validate_enumerator] at h
      | int z => simp [validate_enumerator] at h
      | float q => simp [validate_enumerator] at h
      | str s =>
          rw [validate_enumerator] at h
          split at h
          · rename_i hmem
            injection h with h
            subst h
            exact ⟨rfl, hmem⟩
          · exact absurd h (by simp)
    · rintro ⟨hv, hmem⟩
      subst hv
      simp [validate_enumerator, hmem]

/-- Closed instance of the enumerator exact-match contract. -/
theorem C8_witness :
    validate_enumerator (.str "projection") ["heatmap", "projection"] = .ok "projection" :=
  (C8_validate_enumerator.2 (.str "projection") ["heatmap", "projection"] "projection").mpr
    ⟨rfl, by decide⟩

lemma wrapV_error_shape {α : Type} (p : String) (r : Except String α) (e : PlotError)
    (h : wrapV p r = .error e) : e.isValidationErr = true := by
  unfold wrapV at h
  split at h
  · exact absurd h (fun hc => Except.noConfusion hc)
  · injection h with h
    subst h
    rfl

lemma wrapV_ok {α : Type} (p : String) (r : Except String α) (a : α) :
    wrapV p r = .ok a ↔ r = .ok a := by
  cases r <;> simp [wrapV]

lemma mcEx_valid : validate_markov_chain mcEx = .ok mcEx := by
  rw [validate_markov_chain, if_pos]
  refine ⟨by simp [mcEx], by simp [mcEx], rfl, ?_⟩
  intro row hrow
  have hr : row = [1/2, 1/2] := by
    simp only [mcEx, List.mem_cons, List.not_mem_nil, or_false] at hrow
    rcases hrow with h | h <;> exact h
  subst hr
  refine ⟨rfl, ?_, ?_⟩
  · intro x hx
    simp only [List.mem_cons, List.not_mem_nil, or_false] at hx
    rcases hx with h | h <;> (subst h; norm_num)
  · norm_num [dist_tol]

lemma validateStatusOpt_dist10 :
    validateStatusOpt (some (.dist [1, 0])) mcEx.states = .ok (some [1, 0]) := by
  simp only [validateStatusOpt, validate_status]
  rw [if_pos]
  · rfl
  · refine ⟨rfl, ?_, by norm_num [dist_tol]⟩
    intro x hx
    simp only [List.mem_cons, List.not_mem_nil, or_false] at hx
    rcases hx with h | h <;> (subst h; norm_num)

lemma mcBad_invalid : validate_markov_chain ⟨[], []⟩ = .error "invalid Markov chain" := by
  rw [validate_markov_chain, if_neg]
  simp

/-- C2 counterexample: a mismatched initial status reaches the caller of
plot_redistributions as a bare value error, not as the wrapped
ValidationError kind, so not every caller-visible input failure passes
through generate_validation_error. -/
theorem C2_single_error_kind_counterexample :
    plot_redistributions mcEx (.seq [[1/2, 1/2], [3/5, 2/5]]) (some (.dist [1, 0]))
        (.str "projection") (.int 100)
      = .error (.value redist_mismatch_msg)
    ∧ PlotError.isValidationErr (.value redist_mismatch_msg) = false := by
  refine ⟨?_, rfl⟩
  have hdist : validate_distribution (.seq [[1/2, 1/2], [3/5, 2/5]]) mcEx.size
      = .ok (.seq [[1/2, 1/2], [3/5, 2/5]]) := by
    simp only [validate_distribution]
    rw [if_pos]
    refine ⟨by simp, ?_⟩
    intro d hd
    have hcases : d = [1/2, 1/2] ∨ d = [3/5, 2/5] := by
      simp only [List.mem_cons, List.not_mem_nil, or_false] at hd
      exact hd
    rcases hcases with h | h <;> subst h
    · refine ⟨rfl, ?_, by norm_num [dist_tol]⟩
      intro x hx
      simp only [List.mem_cons, List.not_mem_nil, or_false] at hx
      rcases hx with h | h <;> (subst h; norm_num)
    · refine ⟨rfl, ?_, by norm_num [dist_tol]⟩
      intro x hx
      simp only [List.mem_cons, List.not_mem_nil, or_false] at hx
      rcases hx with h | h <;> (subst h; norm_num)
  have hpt : validate_enumerator (.str "projection") ["heatmap", "projection"] = .ok "projection" := by
    decide
  have hdpi : validate_dpi (.int 100) = .ok 100 := by decide
  rw [plot_redistributions]
  simp only [mcEx_valid, hdist, validateStatusOpt_dist10, hpt, hdpi, wrapV]
  rw [redistFinish, if_pos]
  simp only [redistDistsVal, redistMismatch, List.headD_cons, decide_eq_true_eq, ne_eq]
  norm_num

/-- C2 amended: every failure raised inside the validation try block of
the four public plotting entry points is wrapped by
generate_validation_error into the ValidationError kind; the only
caller-visible failures of another kind are the documented bare value
errors of plot_redistributions and plot_walk raised when an explicit
sequence disagrees with the supplied initial status or state. -/
theorem C2_error_channel_amended :
    (∀ mc dpi e, plot_eigenvalues mc dpi = .error e → e.isValidationErr = true)
    ∧ (∀ mc a b c d f g e, plot_graph mc a b c d f g = .error e → e.isValidationErr = true)
    ∧ (∀ mc dists st pt dpi e, plot_redistributions mc dists st pt dpi = .error e →
        e.isValidationErr = true ∨ e = .value redist_mismatch_msg)
    ∧ (∀ sim mc wk ini pt seed dpi e, plot_walk sim mc wk ini pt seed dpi = .error e →
        e.isValidationErr = true ∨ e = .value walk_mismatch_msg) := by
  refine ⟨?_, ?_, ?_, ?_⟩
  · intro mc dpi e h
    rw [plot_eigenvalues] at h
    cases h1 : wrapV "mc" (validate_markov_chain mc) with
    | error e1 =>
        simp only [h1] at h
        cases h
        exact wrapV_error_shape _ _ _ h1
    | ok mcV =>
        simp only [h1] at h
        cases h2 : wrapV "dpi" (validate_dpi dpi) with
        | error e2 =>
            simp only [h2] at h
            cases h
            exact wrapV_error_shape _ _ _ h2
        | ok dpiV =>
            simp only [h2] at h
            exact absurd h (fun hc => Except.noConfusion hc)
  · intro mc a b c d f g e h
    rw [plot_graph] at h
    cases h1 : wrapV "mc" (validate_markov_chain mc) with
    | error e1 => simp only [h1] at h; cases h; exact wrapV_error_shape _ _ _ h1
    | ok mcV =>
    simp only [h1] at h
    cases h2 : wrapV "nodes_color" (validate_boolean a) with
    | error e2 => simp only [h2] at h; cases h; exact wrapV_error_shape _ _ _ h2
    | ok aV =>
    simp only [h2] at h
    cases h3 : wrapV "nodes_type" (validate_boolean b) with
    | error e3 => simp only [h3] at h; cases h; exact wrapV_error_shape _ _ _ h3
    | ok bV =>
    simp only [h3] at h
    cases h4 : wrapV "edges_color" (validate_boolean c) with
    | error e4 => simp only [h4] at h; cases h; exact wrapV_error_shape _ _ _ h4
    | ok cV =>
    simp only [h4] at h
    cases h5 : wrapV "edges_value" (validate_boolean d) with
    | error e5 => simp only [h5] at h; cases h; exact wrapV_error_shape _ _ _ h5
    | ok dV =>
    simp only [h5] at h
    cases h6 : wrapV "force_standard" (validate_boolean f) with
    | error e6 => simp only [h6] at h; cases h; exact wrapV_error_shape _ _ _ h6
    | ok fV =>
    simp only [h6] at h
    cases h7 : wrapV "dpi" (validate_dpi g) with
    | error e7 => simp only [h7] at h; cases h; exact wrapV_error_shape _ _ _ h7
    | ok gV =>
    simp only [h7] at h
    exact absurd h (fun hc => Except.noConfusion hc)
  · intro mc dists st pt dpi e h
    rw [plot_redistributions] at h
    cases h1 : wrapV "mc" (validate_markov_chain mc) with
    | error e1 => simp only [h1] at h; cases h; exact Or.inl (wrapV_error_shape _ _ _ h1)
    | ok mcV =>
    simp only [h1] at h
    cases h2 : wrapV "distributions" (validate_distribution dists mcV.size) with
    | error e2 => simp only [h2] at h; cases h; exact Or.inl (wrapV_error_shape _ _ _ h2)
    | ok distsV =>
    simp only [h2] at h
    cases h3 : validateStatusOpt st mcV.states with
    | error e3 =>
        simp only [h3] at h
        cases h
        refine Or.inl ?_
        unfold validateStatusOpt at h3
        cases st with
        | none => exact absurd h3 (fun hc => Except.noConfusion hc)
        | some s => exact wrapV_error_shape _ _ _ h3
    | ok stV =>
    simp only [h3] at h
    cases h4 : wrapV "plot_type" (validate_enumerator pt ["heatmap", "projection"]) with
    | error e4 => simp only [h4] at h; cases h; exact Or.inl (wrapV_error_shape _ _ _ h4)
    | ok ptV =>
    simp only [h4] at h
    cases h5 : wrapV "dpi" (validate_dpi dpi) with
    | error e5 => simp only [h5] at h; cases h; exact Or.inl (wrapV_error_shape _ _ _ h5)
    | ok dpiV =>
    simp only [h5] at h
    rw [redistFinish] at h
    split at h
    · cases h
      exact Or.inr rfl
    · exact absurd h (fun hc => Except.noConfusion hc)
  · intro sim mc wk ini pt seed dpi e h
    rw [plot_walk] at h
    cases h1 : wrapV "mc" (validate_markov_chain mc) with
    | error e1 => simp only [h1] at h; cases h; exact Or.inl (wrapV_error_shape _ _ _ h1)
    | ok mcV =>
    simp only [h1] at h
    cases hwk : (match wk with
        | .count z => (wrapV "walk" (validate_integer (.int z) (some (1, false)) none)).map Sum.inl
        | .states refs => (wrapV "walk" (validate_states refs mcV.states "walk" false)).map Sum.inr) with
    | error e2 =>
        simp only [hwk] at h
        cases h
        refine Or.inl ?_
        cases wk with
        | count z =>
            simp only at hwk
            cases hw : wrapV "walk" (validate_integer (.int z) (some (1, false)) none) with
            | error e2' =>
                rw [hw] at hwk
                simp only [Except.map] at hwk
                cases hwk
                exact wrapV_error_shape _ _ _ hw
            | ok n =>
                rw [hw] at hwk
                simp only [Except.map] at hwk
                exact absurd hwk (fun hc => Except.noConfusion hc)
        | states refs =>
            simp only at hwk
            cases hw : wrapV "walk" (validate_states refs mcV.states "walk" false) with
            | error e2' =>
                rw [hw] at hwk
                simp only [Except.map] at hwk
                cases hwk
                exact wrapV_error_shape _ _ _ hw
            | ok l =>
                rw [hw] at hwk
                simp only [Except.map] at hwk
                exact absurd hwk (fun hc => Except.noConfusion hc)
    | ok wkV =>
    simp only [hwk] at h
    cases hini : (match ini with
        | none => Except.ok (none : Option ℕ)
        | some r => (wrapV "initial_state" (validate_state r mcV.states)).map some) with
    | error e3 =>
        simp only [hini] at h
        cases h
        refine Or.inl ?_
        cases ini with
        | none => exact absurd hini (fun hc => Except.noConfusion hc)
        | some r =>
            simp only at hini
            cases hw : wrapV "initial_state" (validate_state r mcV.states) with
            | error e3' =>
                rw [hw] at hini
                simp only [Except.map] at hini
                cases hini
                exact wrapV_error_shape _ _ _ hw
            | ok i =>
                rw [hw] at hini
                simp only [Except.map] at hini
                exact absurd hini (fun hc => Except.noConfusion hc)
    | ok iniV =>
    simp only [hini] at h
    cases h4 : wrapV "plot_type" (validate_enumerator pt ["histogram", "sequence", "transitions"]) with
    | error e4 => simp only [h4] at h; cases h; exact Or.inl (wrapV_error_shape _ _ _ h4)
    | ok ptV =>
    simp only [h4] at h
    cases h5 : wrapV "dpi" (validate_dpi dpi) with
    | error e5 => simp only [h5] at h; cases h; exact Or.inl (wrapV_error_shape _ _ _ h5)
    | ok dpiV =>
    simp only [h5] at h
    unfold walkFinish at h
    split at h
    · cases h
      exact Or.inr rfl
    · exact absurd h (fun hc => Except.noConfusion hc)

/-- Closed instance of the amended error-channel contract at a chain that
fails validation. -/
theorem C2_witness :
    PlotError.isValidationErr (.validation ⟨"mc", "invalid Markov chain"⟩) = true
      ∨ PlotError.validation ⟨"mc", "invalid Markov chain"⟩ = .value redist_mismatch_msg := by
  have hbad : plot_redistributions ⟨[], []⟩ (.count 0) none (.str "heatmap") (.int 100)
      = .error (.validation ⟨"mc", "invalid Markov chain"⟩) := by
    rw [plot_redistributions]
    simp only [mcBad_invalid, wrapV, generate_validation_error]
  exact C2_error_channel_amended.2.2.1 ⟨[], []⟩ (.count 0) none (.str "heatmap") (.int 100)
    (.validation ⟨"mc", "invalid Markov chain"⟩) hbad

lemma distsEx_valid : validate_distribution (.seq [[1/2, 1/2], [3/5, 2/5]]) mcEx.size
    = .ok (.seq [[1/2, 1/2], [3/5, 2/5]]) := by
  simp only [validate_distribution]
  rw [if_pos]
  refine ⟨by simp, ?_⟩
  intro d hd
  have hcases : d = [1/2, 1/2] ∨ d = [3/5, 2/5] := by
    simp only [List.mem_cons, List.not_mem_nil, or_false] at hd
    exact hd
  rcases hcases with h | h <;> subst h
  · refine ⟨rfl, ?_, by norm_num [dist_tol]⟩
    intro x hx
    simp only [List.mem_cons, List.not_mem_nil, or_false] at hx
    rcases hx with h | h <;> (subst h; norm_num)
  · refine ⟨rfl, ?_, by norm_num [dist_tol]⟩
    intro x hx
    simp only [List.mem_cons, List.not_mem_nil, or_false] at hx
    rcases hx with h | h <;> (subst h; norm_num)

lemma statusEx_valid : validate_status (.dist [1, 0]) mcEx.states = .ok [1, 0] := by
  simp only [validate_status]
  rw [if_pos]
  refine ⟨rfl, ?_, by norm_num [dist_tol]⟩
  intro x hx
  simp only [List.mem_cons, List.not_mem_nil, or_false] at hx
  rcases hx with h | h <;> (subst h; norm_num)

lemma redistribute_headD (mc : MC) (n : ℕ) (st : List ℚ) :
    (MC.redistribute mc n (some st)).headD [] = st := by
  cases n <;> simp [MC.redistribute, redistributeAux]

/-- C3: with an explicit accepted sequence of distributions and an
accepted non-None initial status differing from its first element,
plot_redistributions fails with the bare value-mismatch error; likewise
plot_walk fails when an explicit accepted walk opens with a state other
than the supplied accepted initial state. -/
theorem C3_initial_mismatch_raises :
    (∀ (mc : MC) (ds : List (List ℚ)) (stF : StatusFlex) (st : List ℚ) (pt dpi : PyObj)
        (ptV : String) (dpiV : ℤ),
        validate_markov_chain mc = .ok mc →
        validate_distribution (.seq ds) mc.size = .ok (.seq ds) →
        validate_status stF mc.states = .ok st →
        validate_enumerator pt ["heatmap", "projection"] = .ok ptV →
        validate_dpi dpi = .ok dpiV →
        ds.headD [] ≠ st →
        plot_redistributions mc (.seq ds) (some stF) pt dpi = .error (.value redist_mismatch_msg))
    ∧ (∀ (sim : ℕ → Option ℕ → Option ℤ → List ℕ) (mc : MC) (refs : List StateRef) (l : List ℕ)
        (r : StateRef) (i : ℕ) (pt : PyObj) (seed : Option ℤ) (dpi : PyObj)
        (ptV : String) (dpiV : ℤ),
        validate_markov_chain mc = .ok mc →
        validate_states refs mc.states "walk" false = .ok l →
        validate_state r mc.states = .ok i →
        validate_enumerator pt ["histogram", "sequence", "transitions"] = .ok ptV →
        validate_dpi dpi = .ok dpiV →
        l.headD 0 ≠ i →
        plot_walk sim mc (.states refs) (some r) pt seed dpi = .error (.value walk_mismatch_msg)) := by
  constructor
  · intro mc ds stF st pt dpi ptV dpiV hmc hdist hst hpt hdpi hne
    rw [plot_redistributions]
    simp only [hmc, wrapV, hdist, validateStatusOpt, hst, Except.map, hpt, hdpi]
    unfold redistFinish
    rw [if_pos]
    simp only [redistDistsVal, redistMismatch]
    exact decide_eq_true hne
  · intro sim mc refs l r i pt seed dpi ptV dpiV hmc hwl hst hpt hdpi hne
    rw [plot_walk]
    simp only [hmc, wrapV, hwl, hst, Except.map, hpt, hdpi]
    unfold walkFinish
    rw [if_pos]
    exact decide_eq_true hne

/-- Closed instances of both mismatch failures on concrete inputs. -/
theorem C3_witness :
    plot_redistributions mcEx (.seq [[1/2, 1/2], [3/5, 2/5]]) (some (.dist [1, 0]))
        (.str "projection") (.int 100) = .error (.value redist_mismatch_msg)
    ∧ plot_walk (fun _ _ _ => []) mcEx (.states [.idx 0]) (some (.idx 1))
        (.str "histogram") none (.int 100) = .error (.value walk_mismatch_msg) := by
  constructor
  · refine C3_initial_mismatch_raises.1 mcEx [[1/2, 1/2], [3/5, 2/5]] (.dist [1, 0]) [1, 0]
      (.str "projection") (.int 100) "projection" 100 mcEx_valid distsEx_valid statusEx_valid
      (by decide) (by decide) ?_
    simp only [List.headD_cons]
    norm_num
  · exact C3_initial_mismatch_raises.2 (fun _ _ _ => []) mcEx [.idx 0] [0] (.idx 1) 1
      (.str "histogram") none (.int 100) "histogram" 100 mcEx_valid (by decide) (by decide)
      (by decide) (by decide) (by decide)

/-- C4: a plain non-negative integer is accepted by validate_distribution
with a canonical count sentinel distinct from both explicit forms, and
plot_redistributions consumes the count by generating that many
redistribution steps from the chain through mc.redistribute. -/
theorem C4_count_branch (mc : MC) (n : ℤ) (stOpt : Option StatusFlex) (stV : Option (List ℚ))
    (pt dpi : PyObj) (ptV : String) (dpiV : ℤ)
    (hn : 0 ≤ n)
    (hmc : validate_markov_chain mc = .ok mc)
    (hst : validateStatusOpt stOpt mc.states = .ok stV)
    (hpt : validate_enumerator pt ["heatmap", "projection"] = .ok ptV)
    (hdpi : validate_dpi dpi = .ok dpiV) :
    validate_distribution (.count n) mc.size = .ok (.count n.toNat)
    ∧ (∀ d, DistCanon.count n.toNat ≠ .single d)
    ∧ (∀ ds, DistCanon.count n.toNat ≠ .seq ds)
    ∧ plot_redistributions mc (.count n) stOpt pt dpi
        = .ok (mc.redistribute n.toNat stV, ptV, dpiV) := by
  have hd : validate_distribution (.count n) mc.size = .ok (.count n.toNat) := by
    simp only [validate_distribution]
    rw [if_pos hn]
  refine ⟨hd, fun d hc => DistCanon.noConfusion hc, fun ds hc => DistCanon.noConfusion hc, ?_⟩
  rw [plot_redistributions]
  simp only [hmc, wrapV, hd, hst, hpt, hdpi]
  unfold redistFinish redistDistsVal
  cases stV with
  | none => simp [redistMismatch, distsValList]
  | some st =>
      have hcond : redistMismatch (some st) (DistsVal.many (mc.redistribute n.toNat (some st))) = false := by
        simp only [redistMismatch]
        rw [redistribute_headD]
        simp
      rw [hcond]
      rfl

/-- Closed instance of the count branch on a concrete chain. -/
theorem C4_witness :
    validate_distribution (.count 2) mcEx.size = .ok (.count (2 : ℤ).toNat)
    ∧ (∀ d, DistCanon.count (2 : ℤ).toNat ≠ .single d)
    ∧ (∀ ds, DistCanon.count (2 : ℤ).toNat ≠ .seq ds)
    ∧ plot_redistributions mcEx (.count 2) (some (.dist [1, 0])) (.str "heatmap") (.int 100)
        = .ok (mcEx.redistribute (2 : ℤ).toNat (some [1, 0]), "heatmap", 100) :=
  C4_count_branch mcEx 2 (some (.dist [1, 0])) (some [1, 0]) (.str "heatmap") (.int 100)
    "heatmap" 100 (by decide) mcEx_valid validateStatusOpt_dist10 (by decide) (by decide)

lemma data_append_str (a b : String) : (a ++ b).data = a.data ++ b.data := rfl

lemma hexDigitChar_mem (n : ℕ) : hexDigitChar n ∈ hexLowerChars := by
  unfold hexDigitChar
  split <;> decide

lemma natToHex_chars (n : ℕ) : ∀ c ∈ (natToHex n).data, c ∈ hexLowerChars := by
  induction n using Nat.strong_induction_on with
  | _ n ih =>
    rw [natToHex]
    split
    · intro c hc
      have hce : c = hexDigitChar n := by simpa using hc
      rw [hce]
      exact hexDigitChar_mem n
    · intro c hc
      rw [data_append_str] at hc
      rcases List.mem_append.1 hc with h | h
      · exact ih (n / 16) (Nat.div_lt_self (by omega) (by omega)) c h
      · have hce : c = hexDigitChar (n % 16) := by simpa using h
        rw [hce]
        exact hexDigitChar_mem (n % 16)

lemma natToHex_len1 (n : ℕ) (h : n < 16) : (natToHex n).data.length = 1 := by
  rw [natToHex]
  simp [h]

lemma formatHexByte_spec (v : ℕ) (hv : v ≤ 255) :
    (formatHexByte v).data.length = 2 ∧ ∀ c ∈ (formatHexByte v).data, c ∈ hexLowerChars := by
  unfold formatHexByte
  split
  · rename_i hlt
    constructor
    · rw [data_append_str]
      simp [natToHex_len1 v hlt]
    · intro c hc
      rw [data_append_str] at hc
      rcases List.mem_append.1 hc with h | h
      · have hce : c = '0' := by simpa using h
        rw [hce]; decide
      · exact natToHex_chars v c h
  · rename_i hge
    rw [natToHex]
    rw [dif_neg hge]
    constructor
    · rw [data_append_str]
      have h16 : v / 16 < 16 := by omega
      simp [natToHex_len1 _ h16]
    · intro c hc
      rw [data_append_str] at hc
      rcases List.mem_append.1 hc with h | h
      · exact natToHex_chars (v / 16) c h
      · have hce : c = hexDigitChar (v % 16) := by simpa using h
        rw [hce]
        exact hexDigitChar_mem (v % 16)

lemma hexDigitVal_le (c : Char) : hexDigitVal c ≤ 15 := by
  unfold hexDigitVal
  split <;> omega

lemma hexPair_le (c1 c2 : Char) : hexPair c1 c2 ≤ 255 := by
  have h1 := hexDigitVal_le c1
  have h2 := hexDigitVal_le c2
  unfold hexPair
  omega

lemma hexChannels_getD_le (s : String) (j : ℕ) : (hexChannels s).getD j 0 ≤ 255 := by
  match j with
  | 0 => exact hexPair_le _ _
  | 1 => exact hexPair_le _ _
  | 2 => exact hexPair_le _ _
  | n + 3 =>
      have : (hexChannels s).getD (n + 3) 0 = 0 := by
        apply List.getD_eq_default
        simp [hexChannels]
      omega

lemma interpChannel_le (b e s steps : ℕ) (hb : b ≤ 255) (he : e ≤ 255)
    (hs : s ≤ steps - 1) (h2 : 2 ≤ steps) : interpChannel b e s steps ≤ 255 := by
  unfold interpChannel pyIntOfRat
  set t : ℚ := (s : ℚ) / ((steps : ℚ) - 1) with ht
  have hden : (1 : ℚ) ≤ (steps : ℚ) - 1 := by
    have h2q : (2 : ℚ) ≤ (steps : ℚ) := by exact_mod_cast h2
    linarith
  have hsq : (s : ℚ) ≤ (steps : ℚ) - 1 := by
    have h1s : 1 ≤ steps := by omega
    have hcast : ((steps - 1 : ℕ) : ℚ) = (steps : ℚ) - 1 := by
      push_cast [h1s]
      ring
    rw [← hcast]
    exact_mod_cast hs
  have ht0 : 0 ≤ t := by
    rw [ht]
    positivity
  have ht1 : t ≤ 1 := by
    rw [ht, div_le_one (by linarith)]
    linarith
  have hbq : (b : ℚ) ≤ 255 := by exact_mod_cast hb
  have heq : (e : ℚ) ≤ 255 := by exact_mod_cast he
  have hb0 : (0 : ℚ) ≤ (b : ℚ) := by positivity
  have he0 : (0 : ℚ) ≤ (e : ℚ) := by positivity
  have hx0 : (0 : ℚ) ≤ (b : ℚ) + t * ((e : ℚ) - (b : ℚ)) := by nlinarith
  have hx255 : (b : ℚ) + t * ((e : ℚ) - (b : ℚ)) ≤ 255 := by nlinarith
  rw [if_pos hx0, Int.toNat_le]
  have hfloor : ⌊(b : ℚ) + t * ((e : ℚ) - (b : ℚ))⌋ ≤ (255 : ℤ) := by
    have hmono := Int.floor_le_floor hx255
    simpa using hmono
  exact_mod_cast hfloor

lemma isLowerHexColor_cons (c : Char) (rest : List Char) (s : String) (h : s.data = c :: rest) :
    isLowerHexColor s
      = (c == '#' && ((rest.length == 6) && rest.all (fun x => decide (x ∈ hexLowerChars)))) := by
  unfold isLowerHexColor
  rw [h]

lemma interp_gray_black : interpChannel 224 0 1 2 = 0 := by
  unfold interpChannel pyIntOfRat
  norm_num

lemma formatHexByte_zero : formatHexByte 0 = "00" := by
  rw [formatHexByte, if_pos (by norm_num), natToHex, dif_pos (by norm_num)]
  rfl

lemma hexChannels_gray : hexChannels "#E0E0E0" = [224, 224, 224] := by decide

lemma hexChannels_black : hexChannels "#000000" = [0, 0, 0] := by decide

/-- C9 counterexample: on the uppercase 7-character hex inputs used by
plot_graph itself, edge_colors returns the gradient whose first element is
hex_from verbatim, which is not made of lowercase hexadecimal digits, so
not every element of the returned list is a hash sign followed by six
lowercase hexadecimal digits. -/
theorem C9_lowercase_counterexample :
    edge_colors "#E0E0E0" "#000000" 2 = ["#E0E0E0", "#000000"]
    ∧ isLowerHexColor "#E0E0E0" = false := by
  constructor
  · rw [edge_colors]
    simp only [show (2 - 1 : ℕ) = 1 from rfl, show List.range 1 = [0] from rfl,
      show List.range 3 = [0, 1, 2] from rfl, List.map_cons, List.map_nil,
      hexChannels_gray, hexChannels_black, List.getD_cons_zero, List.getD_cons_succ,
      Nat.zero_add]
    rw [interp_gray_black, formatHexByte_zero]
    rfl
  · decide

/-- C9 amended: for 7-character hex inputs and steps at least 2,
edge_colors returns exactly steps elements whose first is hex_from
verbatim, and every element after the first is a hash sign followed by six
lowercase hexadecimal digits, each generated channel rendered as two hex
digits with zero padding below 16. -/
theorem C9_edge_colors_amended (hex_from hex_to : String) (steps : ℕ) (h2 : 2 ≤ steps) :
    (edge_colors hex_from hex_to steps).length = steps
    ∧ (edge_colors hex_from hex_to steps).head? = some hex_from
    ∧ ∀ c ∈ (edge_colors hex_from hex_to steps).tail, isLowerHexColor c = true := by
  refine ⟨?_, ?_, ?_⟩
  · simp only [edge_colors, List.length_cons, List.length_map, List.length_range]
    omega
  · simp only [edge_colors, List.head?_cons]
  · intro c hc
    simp only [edge_colors, List.tail_cons, List.mem_map, List.mem_range] at hc
    obtain ⟨k, hk, hcol⟩ := hc
    subst hcol
    have hb1 := formatHexByte_spec
      (interpChannel ((hexChannels hex_from).getD 0 0) ((hexChannels hex_to).getD 0 0) (k + 1) steps)
      (interpChannel_le _ _ _ _ (hexChannels_getD_le _ _) (hexChannels_getD_le _ _) (by omega) h2)
    have hb2 := formatHexByte_spec
      (interpChannel ((hexChannels hex_from).getD 1 0) ((hexChannels hex_to).getD 1 0) (k + 1) steps)
      (interpChannel_le _ _ _ _ (hexChannels_getD_le _ _) (hexChannels_getD_le _ _) (by omega) h2)
    have hb3 := formatHexByte_spec
      (interpChannel ((hexChannels hex_from).getD 2 0) ((hexChannels hex_to).getD 2 0) (k + 1) steps)
      (interpChannel_le _ _ _ _ (hexChannels_getD_le _ _) (hexChannels_getD_le _ _) (by omega) h2)
    simp only [show List.range 3 = [0, 1, 2] from rfl, List.map_cons, List.map_nil] at *
    set b1 := formatHexByte
      (interpChannel ((hexChannels hex_from).getD 0 0) ((hexChannels hex_to).getD 0 0) (k + 1) steps)
      with hb1d
    set b2 := formatHexByte
      (interpChannel ((hexChannels hex_from).getD 1 0) ((hexChannels hex_to).getD 1 0) (k + 1) steps)
      with hb2d
    set b3 := formatHexByte
      (interpChannel ((hexChannels hex_from).getD 2 0) ((hexChannels hex_to).getD 2 0) (k + 1) steps)
      with hb3d
    have hjoin : String.join [b1, b2, b3] = b1 ++ b2 ++ b3 := rfl
    rw [hjoin]
    have hdata : ("#" ++ (b1 ++ b2 ++ b3)).data = '#' :: (b1.data ++ b2.data ++ b3.data) := rfl
    rw [isLowerHexColor_cons _ _ _ hdata]
    rw [Bool.and_eq_true, Bool.and_eq_true]
    refine ⟨rfl, ?_, ?_⟩
    · simp only [List.length_append, hb1.1, hb2.1, hb3.1]
      rfl
    · rw [List.all_eq_true]
      intro x hcmem
      rw [decide_eq_true_eq]
      rcases List.mem_append.1 hcmem with hca | hcb
      · rcases List.mem_append.1 hca with hcc | hcd
        · exact hb1.2 x hcc
        · exact hb2.2 x hcd
      · exact hb3.2 x hcb

/-- Closed instance of the amended gradient contract at the call used by
plot_graph, with a small step count. -/
theorem C9_witness :
    (edge_colors "#E0E0E0" "#000000" 3).length = 3
    ∧ (edge_colors "#E0E0E0" "#000000" 3).head? = some "#E0E0E0"
    ∧ ∀ c ∈ (edge_colors "#E0E0E0" "#000000" 3).tail, isLowerHexColor c = true :=
  C9_edge_colors_amended "#E0E0E0" "#000000" 3 (by norm_num)

lemma list_sum_map_add {α : Type} (l : List α) (f g : α → ℚ) :
    (l.map (fun x => f x + g x)).sum = (l.map f).sum + (l.map g).sum := by
  induction l with
  | nil => simp
  | cons a t ih =>
      simp only [List.map_cons, List.sum_cons, ih]
      ring

lemma sum_range_indicator (n a : ℕ) (h : a < n) :
    ((List.range n).map (fun j => if a = j then (1 : ℚ) else 0)).sum = 1 := by
  induction n with
  | zero => omega
  | succ m ih =>
      rw [List.range_succ, List.map_append, List.sum_append]
      rcases Nat.lt_succ_iff_lt_or_eq.1 h with h' | h'
      · rw [ih h']
        have hne : a ≠ m := by omega
        simp [hne]
      · subst h'
        have hz : ((List.range a).map (fun j => if a = j then (1 : ℚ) else 0)).sum = 0 := by
          apply List.sum_eq_zero
          intro x hx
          simp only [List.mem_map, List.mem_range] at hx
          obtain ⟨j, hj, hxe⟩ := hx
          have hne : a ≠ j := by omega
          rw [← hxe]
          simp [hne]
        rw [hz]
        simp

lemma histMatrix_total (size : ℕ) (walk : List ℕ) (h : ∀ s ∈ walk, s < size) :
    ((histMatrix size walk).map List.sum).sum = (walk.length : ℚ) := by
  induction walk with
  | nil => simp [histMatrix, histRow, Function.comp_def]
  | cons a l ih =>
      have ha : a < size := h a (by simp)
      have hl : ∀ s ∈ l, s < size := fun s hs => h s (by simp [hs])
      have hrow : ∀ s : ℕ, (histRow (a :: l) s).sum
          = (if a = s then (1 : ℚ) else 0) + (histRow l s).sum := by
        intro s
        simp [histRow]
      simp only [histMatrix, List.map_map, Function.comp_def] at ih ⊢
      have hmc : (List.range size).map (fun s => (histRow (a :: l) s).sum)
          = (List.range size).map (fun s => (if a = s then (1 : ℚ) else 0) + (histRow l s).sum) :=
        List.map_congr_left (fun s _ => hrow s)
      rw [hmc, list_sum_map_add, sum_range_indicator size a ha, ih hl]
      simp only [List.length_cons]
      push_cast
      ring

lemma sum_map_div (l : List ℚ) (t : ℚ) : (l.map (fun r => r / t)).sum = l.sum / t := by
  induction l with
  | nil => simp
  | cons a m ih =>
      simp only [List.map_cons, List.sum_cons, ih]
      rw [add_div]

/-- C10: in the histogram branch of plot_walk, for a non-empty walk over
valid state indices the computed frequency vector has non-negative entries
and sums to exactly 1 under exact arithmetic: each step contributes one
count to one state, the counts total the walk length, and dividing by that
total normalizes the vector. -/
theorem C10_walk_histogram_normalized (size : ℕ) (walk : List ℕ)
    (hne : walk ≠ []) (hval : ∀ s ∈ walk, s < size) :
    (walkFreq size walk).sum = 1 ∧ ∀ x ∈ walkFreq size walk, 0 ≤ x := by
  have htot : ((histMatrix size walk).map List.sum).sum = (walk.length : ℚ) :=
    histMatrix_total size walk hval
  have hlen : 0 < walk.length := List.length_pos.2 hne
  have hlenq : (0 : ℚ) < (walk.length : ℚ) := by exact_mod_cast hlen
  constructor
  · rw [walkFreq, sum_map_div, htot]
    exact div_self (ne_of_gt hlenq)
  · intro x hx
    rw [walkFreq] at hx
    simp only [List.mem_map] at hx
    obtain ⟨r, hr, hxe⟩ := hx
    rw [← hxe]
    have hr0 : 0 ≤ r := by
      obtain ⟨row, hrow, hre⟩ := hr
      obtain ⟨s, hsmem, hrowe⟩ := by
        simpa only [histMatrix, List.mem_map] using hrow
      rw [← hre, ← hrowe]
      apply List.sum_nonneg
      intro y hy
      simp only [histRow, List.mem_map] at hy
      obtain ⟨st, hstm, hye⟩ := hy
      rw [← hye]
      split <;> norm_num
    apply div_nonneg hr0
    rw [htot]
    exact le_of_lt hlenq

/-- Closed instance of the histogram normalization on a concrete walk. -/
theorem C10_witness :
    (walkFreq 2 [0, 1, 0]).sum = 1 ∧ ∀ x ∈ walkFreq 2 [0, 1, 0], 0 ≤ x :=
  C10_walk_histogram_normalized 2 [0, 1, 0] (by decide) (by decide)

lemma idem_guard {α : Type} (P : α → Prop) [inst : ∀ x, Decidable (P x)] (m : String) :
    IdemStep (fun x => if P x then Except.ok x else Except.error m) id := by
  intro v c h
  change (if P v then Except.ok v else Except.error m) = Except.ok c at h
  change (if P c then Except.ok c else Except.error m) = Except.ok c
  split at h
  · rename_i hp
    injection h with h
    subst h
    rw [if_pos hp]
  · exact absurd h (by simp)

lemma idem_boolean : IdemStep validate_boolean PyObj.bool := by
  intro v c h
  cases v with
  | bool b =>
      simp only [validate_boolean] at h
      injection h with h
      subst h
      rfl
  | int z => simp [validate_boolean] at h
  | float q => simp [validate_boolean] at h
  | str s => simp [validate_boolean] at h

lemma idem_integer (lo hi : Option (ℚ × Bool)) :
    IdemStep (fun v => validate_integer v lo hi) (fun z => PyObj.int z) := by
  intro v c h
  simp only at h ⊢
  cases v with
  | bool b => simp [validate_integer] at h
  | str s => simp [validate_integer] at h
  | int z =>
      simp only [validate_integer] at h
      split at h
      · rename_i hc
        injection h with h
        subst h
        simp only [validate_integer]
        rw [if_pos hc]
      · exact absurd h (by simp)
  | float q =>
      simp only [validate_integer] at h
      split at h
      · rename_i hden
        split at h
        · rename_i hc
          injection h with h
          subst h
          have hq : ((q.num : ℚ)) = q := (Rat.den_eq_one_iff q).1 hden
          simp only [validate_integer]
          rw [hq, if_pos hc]
        · exact absurd h (by simp)
      · exact absurd h (by simp)

lemma idem_float (lo hi : Option (ℚ × Bool)) :
    IdemStep (fun v => validate_float v lo hi) PyObj.float := by
  intro v c h
  simp only at h ⊢
  cases v with
  | bool b => simp [validate_float] at h
  | str s => simp [validate_float] at h
  | int z =>
      simp only [validate_float] at h
      split at h
      · rename_i hc
        injection h with h
        subst h
        simp only [validate_float]
        rw [if_pos hc]
      · exact absurd h (by simp)
  | float q =>
      simp only [validate_float] at h
      split at h
      · rename_i hc
        injection h with h
        subst h
        simp only [validate_float]
        rw [if_pos hc]
      · exact absurd h (by simp)

lemma idem_enumerator (allowed : List String) :
    IdemStep (fun v => validate_enumerator v allowed) PyObj.str := by
  intro v c h
  simp only at h ⊢
  cases v with
  | bool b => simp [validate_enumerator] at h
  | int z => simp [validate_enumerator] at h
  | float q => simp [validate_enumerator] at h
  | str s =>
      simp only [validate_enumerator] at h
      split at h
      · rename_i hmem
        injection h with h
        subst h
        simp only [validate_enumerator]
        rw [if_pos hmem]
      · exact absurd h (by simp)

lemma idem_boundary : IdemStep validate_boundary_condition id := by
  intro v c h
  cases v with
  | bool b => simp [validate_boundary_condition] at h
  | int z =>
      simp only [validate_boundary_condition] at h
      injection h with h
      subst h
      rfl
  | float q =>
      simp only [validate_boundary_condition] at h
      injection h with h
      subst h
      rfl
  | str s =>
      simp only [validate_boundary_condition] at h
      split at h
      · rename_i hmem
        injection h with h
        subst h
        simp only [id, validate_boundary_condition]
        rw [if_pos hmem]
      · exact absurd h (by simp)

lemma idem_interval :
    IdemStep validate_interval (fun pr => (PyObj.float pr.1, PyObj.float pr.2)) := by
  intro v c h
  simp only [validate_interval] at h
  split at h
  · split at h
    · rename_i hlt
      injection h with h
      subst h
      simp only [validate_interval]
      rw [if_pos ⟨rfl, rfl⟩]
      change (if v.1.numValue < v.2.numValue then
          Except.ok (v.1.numValue, v.2.numValue)
        else Except.error "interval is not strictly increasing")
        = Except.ok (v.1.numValue, v.2.numValue)
      rw [if_pos hlt]
    · exact absurd h (by simp)
  · exact absurd h (by simp)

lemma validate_state_lt (v : StateRef) (cs : List String) (i : ℕ)
    (h : validate_state v cs = .ok i) : i < cs.length := by
  cases v with
  | name s =>
      simp only [validate_state] at h
      split at h
      · rename_i hmem
        injection h with h
        subst h
        exact List.indexOf_lt_length.2 hmem
      · exact absurd h (by simp)
  | idx z =>
      simp only [validate_state] at h
      split at h
      · rename_i hc
        injection h with h
        subst h
        omega
      · exact absurd h (by simp)

lemma validate_state_idx (cs : List String) (i : ℕ) (h : i < cs.length) :
    validate_state (.idx ((i : ℕ) : ℤ)) cs = .ok i := by
  simp only [validate_state]
  rw [if_pos ⟨by omega, by omega⟩]
  have he : ((i : ℕ) : ℤ).toNat = i := by omega
  rw [he]

lemma idem_state (cs : List String) :
    IdemStep (fun v => validate_state v cs) (fun (i : ℕ) => StateRef.idx ((i : ℕ) : ℤ)) := by
  intro v c h
  simp only at h ⊢
  exact validate_state_idx cs c (validate_state_lt v cs c h)

lemma mapValidate_ok_facts (f : StateRef → Except String ℕ) (l : List StateRef) (res : List ℕ)
    (h : mapValidate f l = .ok res) :
    res.length = l.length ∧ ∀ i ∈ res, ∃ r, f r = .ok i := by
  induction l generalizing res with
  | nil =>
      simp only [mapValidate] at h
      injection h with h
      subst h
      simp
  | cons r t ih =>
      simp only [mapValidate] at h
      cases hf : f r with
      | error e => rw [hf] at h; exact absurd h (by simp)
      | ok i =>
          rw [hf] at h
          cases hm : mapValidate f t with
          | error e => rw [hm] at h; exact absurd h (by simp)
          | ok l2 =>
              rw [hm] at h
              injection h with h
              subst h
              obtain ⟨hlen, hmem⟩ := ih l2 hm
              refine ⟨by simp [hlen], ?_⟩
              intro j hj
              rcases List.mem_cons.1 hj with hje | hjm
              · exact ⟨r, by rw [hf, hje]⟩
              · exact hmem j hjm

lemma mapValidate_idx (cs : List String) (res : List ℕ) (hres : ∀ i ∈ res, i < cs.length) :
    mapValidate (fun r => validate_state r cs)
      (res.map (fun (i : ℕ) => StateRef.idx ((i : ℕ) : ℤ)))
      = .ok res := by
  induction res with
  | nil => rfl
  | cons i t ih =>
      have hi : i < cs.length := hres i (by simp)
      have ht : ∀ j ∈ t, j < cs.length := fun j hj => hres j (by simp [hj])
      simp only [List.map_cons, mapValidate]
      rw [validate_state_idx cs i hi, ih ht]

lemma idem_states (cs : List String) (p : String) (ae : Bool) :
    IdemStep (fun v => validate_states v cs p ae)
      (fun l => l.map (fun (i : ℕ) => StateRef.idx ((i : ℕ) : ℤ))) := by
  intro v c h
  simp only [validate_states] at h ⊢
  split at h
  · exact absurd h (by simp)
  · rename_i hcond
    obtain ⟨hlen, hmem⟩ := mapValidate_ok_facts _ v c h
    have hlt : ∀ i ∈ c, i < cs.length := by
      intro i hi
      obtain ⟨r, hr⟩ := hmem i hi
      exact validate_state_lt r cs i hr
    have hemp : ¬(c.map (fun (i : ℕ) => StateRef.idx ((i : ℕ) : ℤ)) = [] ∧ ae = false) := by
      rintro ⟨hmape, hae⟩
      have hce : c = [] := List.map_eq_nil_iff.1 hmape
      have hve : v = [] := by
        have := hlen
        rw [hce] at this
        exact List.length_eq_zero.1 this.symm
      exact hcond ⟨hve, hae⟩
    rw [if_neg hemp]
    exact mapValidate_idx cs c hlt

lemma idem_distribution (size : ℕ) :
    IdemStep (fun v => validate_distribution v size) distCanonToFlex := by
  intro v c h
  simp only at h ⊢
  cases v with
  | count n =>
      simp only [validate_distribution] at h
      split at h
      · injection h with h
        subst h
        simp only [distCanonToFlex, validate_distribution]
        rw [if_pos (by exact_mod_cast Nat.zero_le n.toNat)]
        have he : ((n.toNat : ℤ)).toNat = n.toNat := by omega
        rw [he]
      · exact absurd h (by simp)
  | single d =>
      simp only [validate_distribution] at h
      split at h
      · rename_i hd
        injection h with h
        subst h
        simp only [distCanonToFlex, validate_distribution]
        rw [if_pos hd]
      · exact absurd h (by simp)
  | seq ds =>
      simp only [validate_distribution] at h
      split at h
      · rename_i hd
        injection h with h
        subst h
        simp only [distCanonToFlex, validate_distribution]
        rw [if_pos hd]
      · exact absurd h (by simp)

lemma oneHot_isDistVector (n i : ℕ) (h : i < n) : isDistVector (oneHot n i) n := by
  refine ⟨by simp [oneHot], ?_, ?_⟩
  · intro x hx
    simp only [oneHot, List.mem_map, List.mem_range] at hx
    obtain ⟨j, hj, hxe⟩ := hx
    rw [← hxe]
    split <;> norm_num
  · have horient : (fun j => if j = i then (1 : ℚ) else 0) = (fun j => if i = j then (1 : ℚ) else 0) := by
      funext j
      simp [eq_comm]
    rw [oneHot, horient, sum_range_indicator n i h]
    norm_num [dist_tol]

lemma idem_status (cs : List String) :
    IdemStep (fun v => validate_status v cs) StatusFlex.dist := by
  intro v c h
  simp only at h ⊢
  cases v with
  | dist d =>
      simp only [validate_status] at h
      split at h
      · rename_i hd
        injection h with h
        subst h
        simp only [validate_status]
        rw [if_pos hd]
      · exact absurd h (by simp)
  | state r =>
      simp only [validate_status] at h
      cases hs : validate_state r cs with
      | error e => rw [hs] at h; simp [Except.map] at h
      | ok i =>
          rw [hs] at h
          simp only [Except.map] at h
          injection h with h
          subst h
          simp only [validate_status]
          rw [if_pos (oneHot_isDistVector cs.length i (validate_state_lt r cs i hs))]

/-- C6: every validator of the layer is idempotent: re-validating the
canonical result of a successful validation, injected back as a raw input,
succeeds and returns the same canonical result. -/
theorem C6_all_validators_idempotent :
    IdemStep validate_boolean PyObj.bool
    ∧ (∀ lo hi, IdemStep (fun v => validate_integer v lo hi) (fun z => PyObj.int z))
    ∧ (∀ lo hi, IdemStep (fun v => validate_float v lo hi) PyObj.float)
    ∧ (∀ allowed, IdemStep (fun v => validate_enumerator v allowed) PyObj.str)
    ∧ IdemStep validate_dpi (fun z => PyObj.int z)
    ∧ IdemStep validate_boundary_condition id
    ∧ IdemStep validate_dictionary id
    ∧ IdemStep validate_interval (fun pr => (PyObj.float pr.1, PyObj.float pr.2))
    ∧ (∀ size, IdemStep (fun v => validate_hyperparameter v size) id)
    ∧ (∀ cs, IdemStep (fun v => validate_state v cs) (fun (i : ℕ) => StateRef.idx ((i : ℕ) : ℤ)))
    ∧ (∀ cs p ae, IdemStep (fun v => validate_states v cs p ae)
        (fun l => l.map (fun (i : ℕ) => StateRef.idx ((i : ℕ) : ℤ))))
    ∧ (∀ size, IdemStep (fun v => validate_distribution v size) distCanonToFlex)
    ∧ (∀ cs, IdemStep (fun v => validate_status v cs) StatusFlex.dist)
    ∧ IdemStep validate_graph id
    ∧ IdemStep validate_markov_chain id
    ∧ IdemStep validate_transition_function id := by
  refine ⟨idem_boolean, idem_integer, idem_float, idem_enumerator, ?_, idem_boundary, ?_,
    idem_interval, ?_, idem_state, idem_states, idem_distribution, idem_status, ?_, ?_, ?_⟩
  · intro v c h
    unfold validate_dpi at h ⊢
    exact idem_integer _ _ v c h
  · exact idem_guard _ "invalid dictionary"
  · intro size
    exact idem_guard _ "invalid hyperparameter"
  · exact idem_guard _ "invalid graph"
  · exact idem_guard _ "invalid Markov chain"
  · exact idem_guard _ "invalid transition function"

/-- Closed instance of validator idempotence: re-validating the canonical
index produced for a state name returns the same index. -/
theorem C6_witness : validate_state (StateRef.idx ((1 : ℕ) : ℤ)) ["a", "b"] = .ok 1 :=
  (C6_all_validators_idempotent.2.2.2.2.2.2.2.2.2.1 ["a", "b"]) (StateRef.name "b") 1 (by decide)

end PyDTMC
